import Mathlib

/- Shallow embedding of the agent orchestration core of
   src/backend/simple_agent.py (class SimpleAgent).
   Python strings are modelled as List Char; Python str methods are modelled
   for the ASCII range the program uses.  External collaborators (Ollama
   clients, the Tavily HTTP API, ChromaDB, the file system, subprocesses)
   are modelled as oracle functions gathered in an Env record. -/

/- Python whitespace characters recognised by str.strip and str.split
   (ASCII subset). -/
def pyIsSpace (c : Char) : Bool :=
  c == ' ' || c == '\t' || c == '\n' || c == '\r' || c == '\x0b' || c == '\x0c'

/- Python str.strip with no argument: drop leading and trailing whitespace. -/
def pyStrip (s : List Char) : List Char :=
  ((s.dropWhile pyIsSpace).reverse.dropWhile pyIsSpace).reverse

/- Python str.lower (ASCII case mapping). -/
def pyLower (s : List Char) : List Char :=
  s.map Char.toLower

/- Python str.upper (ASCII case mapping). -/
def pyUpper (s : List Char) : List Char :=
  s.map Char.toUpper

/- Python str.strip with a single stripping character. -/
def pyStripChar (c : Char) (s : List Char) : List Char :=
  ((s.dropWhile (· == c)).reverse.dropWhile (· == c)).reverse

/- Python str.join over a list of strings. -/
def joinSep (sep : List Char) : List (List Char) → List Char
  | [] => []
  | [x] => x
  | x :: xs => x ++ sep ++ joinSep sep xs

/- Python slicing l[s:] for an Int start index (negative indices count from
   the end, out-of-range starts are clamped). -/
def pySliceFrom (s : Int) (l : List α) : List α :=
  if s < 0 then l.drop (l.length - (-s).toNat)
  else l.drop s.toNat

/- Python str.split() with no separator: split on whitespace runs, no empty
   fields. -/
def pySplitAux : List Char → List Char → List (List Char)
  | [], acc => if acc.isEmpty then [] else [acc.reverse]
  | c :: cs, acc =>
    if pyIsSpace c then
      if acc.isEmpty then pySplitAux cs [] else acc.reverse :: pySplitAux cs []
    else pySplitAux cs (c :: acc)

def pySplit (s : List Char) : List (List Char) :=
  pySplitAux s []

/- Python str.split(maxsplit=1) with no separator. -/
def pySplitMax1 (s : List Char) : List (List Char) :=
  let s1 := s.dropWhile pyIsSpace
  if s1.isEmpty then []
  else
    let tok := s1.takeWhile (fun c => !pyIsSpace c)
    let rest := (s1.dropWhile (fun c => !pyIsSpace c)).dropWhile pyIsSpace
    if rest.isEmpty then [tok] else [tok, rest]

/- Python int(str): optional surrounding whitespace, optional sign, decimal
   digits with single underscores allowed between digits.  Returns none when
   Python would raise ValueError. -/
def pyDigitsVal : List Char → Option Nat
  | [] => none
  | cs => pyDigitsValAux cs 0 false
where
  pyDigitsValAux : List Char → Nat → Bool → Option Nat
    | [], acc, seen => if seen then some acc else none
    | c :: cs, acc, seen =>
      if c == '_' then
        -- an underscore must be between digits
        match cs with
        | c2 :: _ => if seen && c2.isDigit then pyDigitsValAux cs acc seen else none
        | [] => none
      else if c.isDigit then pyDigitsValAux cs (acc * 10 + (c.toNat - '0'.toNat)) true
      else none

def pyIntOfString (s : List Char) : Option Int :=
  let t := pyStrip s
  match t with
  | '-' :: ds => (pyDigitsVal ds).map (fun n => -(n : Int))
  | '+' :: ds => (pyDigitsVal ds).map (fun n => (n : Int))
  | ds => (pyDigitsVal ds).map (fun n => (n : Int))

/- Rendering of a Python int by str()/f-strings. -/
def intStr (i : Int) : List Char :=
  (toString i).toList

/- ---------------------------------------------------------------- -/
/- The history entries stored in SimpleAgent.chat_history:
   dicts of the form with keys role and content. -/
structure HistEntry where
  role : List Char
  content : List Char
deriving DecidableEq

/- SimpleAgent._append_history, the pure part: append the new entry and
   truncate with the Python slice chat_history[-max_history:]. -/
def appendHistoryPure (maxHistory : Int) (hist : List HistEntry) (e : HistEntry) :
    List HistEntry :=
  pySliceFrom (-maxHistory) (hist ++ [e])

/- ---------------------------------------------------------------- -/
/- SimpleAgent.allowed_command_prefixes (source lines 64-73). -/
def allowedCommandPrefixes : List (List Char) :=
  [("dir".toList),
   ("type".toList),
   ("python -m http.server".toList),
   ("python -c".toList),
   ("py -m http.server".toList),
   ("pip show".toList),
   ("pip list".toList),
   ("ollama list".toList)]

/- SimpleAgent._is_command_allowed (source lines 265-272): the command is
   stripped and lowercased; an empty result is refused; otherwise the list
   of allowed prefixes is scanned with a lowercased startswith test. -/
def isCommandAllowed (command : List Char) : Bool :=
  if (pyLower (pyStrip command)).isEmpty then false
  else allowedCommandPrefixes.any
    (fun p => List.isPrefixOf (pyLower p) (pyLower (pyStrip command)))

/- Specification-side reading of the allow check, following the words of the
   spec: the lowercased trimmed command starts with one of the configured
   allow-list prefixes, matched case-insensitively. -/
def startsWithAllowedPrefix (c : List Char) : Prop :=
  ∃ p, p ∈ allowedCommandPrefixes ∧
    List.isPrefixOf (pyLower p) (pyLower (pyStrip c)) = true

/- A sample history entry used by concrete instances. -/
def c2Entry : HistEntry :=
  ⟨"user".toList, "hi".toList⟩

/- ---------------------------------------------------------------- -/
/- JSON values as produced by Python json.loads.  Numbers keep their source
   lexeme: no claim depends on numeric values, and Python float arithmetic
   is outside the embedding.  Objects are Python dicts: insertion-ordered
   key/value lists without duplicate keys. -/
inductive JVal where
  | null
  | bool (b : Bool)
  | num (raw : List Char)
  | str (s : List Char)
  | arr (elems : List JVal)
  | obj (fields : List (List Char × JVal))

/- Python dict insertion: updating an existing key keeps its position,
   a fresh key is appended. -/
def dictInsert (fs : List (List Char × JVal)) (k : List Char) (v : JVal) :
    List (List Char × JVal) :=
  if fs.any (fun p => p.1 == k) then
    fs.map (fun p => if p.1 == k then (k, v) else p)
  else fs ++ [(k, v)]

/- Python dict.get(k) returning None (here: none) when absent. -/
def jLookup (fs : List (List Char × JVal)) (k : List Char) : Option JVal :=
  match fs.find? (fun p => p.1 == k) with
  | some p => some p.2
  | none => none

/- Python truthiness of a decoded JSON value.  A number is falsy exactly
   when its mantissa digits are all zero. -/
def numIsZero (raw : List Char) : Bool :=
  let mantissa := (raw.takeWhile (fun c => !(c == 'e' || c == 'E'))).filter Char.isDigit
  !mantissa.isEmpty && mantissa.all (fun c => c == '0')

def jFalsy : JVal → Bool
  | .null => true
  | .bool b => !b
  | .num raw => numIsZero raw
  | .str s => s.isEmpty
  | .arr xs => xs.isEmpty
  | .obj fs => fs.isEmpty

def jTruthy (v : JVal) : Bool :=
  !jFalsy v

/- The apostrophe character, used by Python repr of strings. -/
def aposC : Char := Char.ofNat 39

def lbraceC : Char := Char.ofNat 123
def rbraceC : Char := Char.ofNat 125

/- Python repr/str rendering of a decoded JSON value, as interpolated by
   the f-strings of the source.  String escaping inside repr is not
   modelled (no claim depends on it). -/
mutual
def pyRepr : JVal → List Char
  | .null => "None".toList
  | .bool true => "True".toList
  | .bool false => "False".toList
  | .num raw => raw
  | .str s => aposC :: (s ++ [aposC])
  | .arr xs => '[' :: (pyReprList xs ++ [']'])
  | .obj fs => lbraceC :: (pyReprFields fs ++ [rbraceC])

def pyReprList : List JVal → List Char
  | [] => []
  | [x] => pyRepr x
  | x :: xs => pyRepr x ++ ", ".toList ++ pyReprList xs

def pyReprFields : List (List Char × JVal) → List Char
  | [] => []
  | [(k, v)] => (aposC :: (k ++ [aposC])) ++ ": ".toList ++ pyRepr v
  | (k, v) :: fs =>
    (aposC :: (k ++ [aposC])) ++ ": ".toList ++ pyRepr v ++ ", ".toList
      ++ pyReprFields fs
end

def pyStr (v : JVal) : List Char :=
  match v with
  | .str s => s
  | w => pyRepr w

/- json.dumps string escaping (default ensure_ascii=True). -/
def hexDigitChar (n : Nat) : Char :=
  if n < 10 then Char.ofNat ('0'.toNat + n) else Char.ofNat ('a'.toNat + n - 10)

def uEscape (n : Nat) : List Char :=
  ['\\', 'u', hexDigitChar (n / 4096 % 16), hexDigitChar (n / 256 % 16),
   hexDigitChar (n / 16 % 16), hexDigitChar (n % 16)]

def jsonEscapeChar (c : Char) : List Char :=
  if c == '"' then ['\\', '"']
  else if c == '\\' then ['\\', '\\']
  else if c == '\n' then ['\\', 'n']
  else if c == '\r' then ['\\', 'r']
  else if c == '\t' then ['\\', 't']
  else if c == '\x08' then ['\\', 'b']
  else if c == '\x0c' then ['\\', 'f']
  else if c.toNat < 32 then uEscape c.toNat
  else if c.toNat < 127 then [c]
  else if c.toNat ≤ 65535 then uEscape c.toNat
  else
    let n := c.toNat - 65536
    uEscape (55296 + n / 1024) ++ uEscape (56320 + n % 1024)

def jsonQuote (s : List Char) : List Char :=
  '"' :: ((s.map jsonEscapeChar).flatten ++ ['"'])

/- json.dumps with default separators. -/
mutual
def jDump : JVal → List Char
  | .null => "null".toList
  | .bool true => "true".toList
  | .bool false => "false".toList
  | .num raw => raw
  | .str s => jsonQuote s
  | .arr xs => '[' :: (jDumpList xs ++ [']'])
  | .obj fs => lbraceC :: (jDumpFields fs ++ [rbraceC])

def jDumpList : List JVal → List Char
  | [] => []
  | [x] => jDump x
  | x :: xs => jDump x ++ ", ".toList ++ jDumpList xs

def jDumpFields : List (List Char × JVal) → List Char
  | [] => []
  | [(k, v)] => jsonQuote k ++ ": ".toList ++ jDump v
  | (k, v) :: fs =>
    jsonQuote k ++ ": ".toList ++ jDump v ++ ", ".toList ++ jDumpFields fs
end

/- Plain decimal digit strings (no underscores), as they occur inside a
   JSON number lexeme. -/
def digitsValAux : List Char → Nat → Nat
  | [], acc => acc
  | c :: cs, acc => digitsValAux cs (acc * 10 + (c.toNat - '0'.toNat))

def digitsValOpt (cs : List Char) : Option Nat :=
  if cs.isEmpty then none
  else if cs.all Char.isDigit then some (digitsValAux cs 0)
  else none

/- Python int() applied to a decoded JSON number: exact for integer
   lexemes, truncation toward zero for finite float lexemes, ValueError
   for NaN and the infinities. -/
def numLexTruncToInt (raw : List Char) : Option Int :=
  let sgn := match raw with
    | '-' :: _ => true
    | _ => false
  let rest := match raw with
    | '-' :: r => r
    | r => r
  let mant := rest.takeWhile (fun c => !(c == 'e' || c == 'E'))
  let expPart := rest.dropWhile (fun c => !(c == 'e' || c == 'E'))
  let expVal : Option Int :=
    match expPart with
    | [] => some 0
    | _ :: es =>
      match es with
      | '+' :: ds => (digitsValOpt ds).map (fun n => (n : Int))
      | '-' :: ds => (digitsValOpt ds).map (fun n => -(n : Int))
      | ds => (digitsValOpt ds).map (fun n => (n : Int))
  let ipart := mant.takeWhile (fun c => !(c == '.'))
  let fpart := match mant.dropWhile (fun c => !(c == '.')) with
    | [] => []
    | _ :: f => f
  match expVal, digitsValOpt (ipart ++ fpart) with
  | some e, some m =>
    let s : Int := e - fpart.length
    let mag : Nat := if 0 ≤ s then m * 10 ^ s.toNat else m / 10 ^ (-s).toNat
    some (if sgn then -(mag : Int) else (mag : Int))
  | _, _ => none

/- Python int(x) on a value decoded from JSON, as an Except mirroring the
   exceptions int() raises. -/
def pyIntOfJVal (v : JVal) : Except (List Char) Int :=
  match v with
  | .num raw =>
    match numLexTruncToInt raw with
    | some n => .ok n
    | none => .error ("ValueError: cannot convert number to int".toList)
  | .str s =>
    match pyIntOfString s with
    | some n => .ok n
    | none => .error ("ValueError: invalid literal for int() with base 10".toList)
  | .bool b => .ok (if b then 1 else 0)
  | _ => .error ("TypeError: int() argument must be a real number or string".toList)

/- ---------------------------------------------------------------- -/
/- json.loads, modelled as a total recursive-descent parser.  The fuel is
   bounded by the input length plus one, which dominates the nesting depth;
   every recursive call strictly decreases the fuel, keeping the definition
   structurally recursive and kernel-evaluable. -/

/- JSON whitespace (the four characters the Python decoder skips). -/
def skipWs (cs : List Char) : List Char :=
  cs.dropWhile (fun c => c == ' ' || c == '\t' || c == '\n' || c == '\r')

def hexVal (c : Char) : Option Nat :=
  let n := c.toNat
  if 48 ≤ n ∧ n ≤ 57 then some (n - 48)
  else if 97 ≤ n ∧ n ≤ 102 then some (n - 97 + 10)
  else if 65 ≤ n ∧ n ≤ 70 then some (n - 65 + 10)
  else none

/- Body of a JSON string after the opening quote.  Strict mode: unescaped
   control characters are rejected.  Unicode escapes are decoded per code
   unit (surrogate pairs are not recombined; no claim depends on that). -/
def parseStringBody : List Char → Option (List Char × List Char)
  | [] => none
  | c :: cs =>
    if c == '"' then some ([], cs)
    else if c == '\\' then
      match cs with
      | [] => none
      | e :: cs2 =>
        if e == 'u' then
          match cs2 with
          | h1 :: h2 :: h3 :: h4 :: cs3 =>
            match hexVal h1, hexVal h2, hexVal h3, hexVal h4 with
            | some a, some b, some c4, some d =>
              match parseStringBody cs3 with
              | some (s, rest) =>
                some (Char.ofNat (a * 4096 + b * 256 + c4 * 16 + d) :: s, rest)
              | none => none
            | _, _, _, _ => none
          | _ => none
        else
          let dec : Option Char :=
            if e == '"' then some '"'
            else if e == '\\' then some '\\'
            else if e == '/' then some '/'
            else if e == 'b' then some (Char.ofNat 8)
            else if e == 'f' then some (Char.ofNat 12)
            else if e == 'n' then some '\n'
            else if e == 'r' then some '\r'
            else if e == 't' then some '\t'
            else none
          match dec with
          | some d =>
            match parseStringBody cs2 with
            | some (s, rest) => some (d :: s, rest)
            | none => none
          | none => none
    else if c.toNat < 32 then none
    else
      match parseStringBody cs with
      | some (s, rest) => some (c :: s, rest)
      | none => none

/- A JSON number lexeme: sign, integer part without leading zeros,
   optional fraction, optional exponent. -/
def parseNumber (cs : List Char) : Option (List Char × List Char) := do
  let sgn : List Char := match cs with
    | '-' :: _ => ['-']
    | _ => []
  let r1 : List Char := match cs with
    | '-' :: r => r
    | r => r
  let (ip, r2) ← match r1 with
    | '0' :: r => some ((['0'] : List Char), r)
    | c :: _ =>
      if c.isDigit then some (r1.takeWhile Char.isDigit, r1.dropWhile Char.isDigit)
      else none
    | [] => none
  let (fp, r3) ← match r2 with
    | '.' :: r =>
      let ds := r.takeWhile Char.isDigit
      if ds.isEmpty then none else some ('.' :: ds, r.dropWhile Char.isDigit)
    | _ => some (([] : List Char), r2)
  let (ep, r4) ← match r3 with
    | c :: r =>
      if c == 'e' || c == 'E' then
        let es : List Char := match r with
          | '+' :: _ => ['+']
          | '-' :: _ => ['-']
          | _ => []
        let r5 : List Char := match r with
          | '+' :: rr => rr
          | '-' :: rr => rr
          | rr => rr
        let ds := r5.takeWhile Char.isDigit
        if ds.isEmpty then none
        else some (c :: (es ++ ds), r5.dropWhile Char.isDigit)
      else some (([] : List Char), r3)
    | [] => some (([] : List Char), r3)
  some (sgn ++ ip ++ fp ++ ep, r4)

/- Element list of a JSON array; the value parser for the current fuel
   level is passed in, so the recursion is structural on the fuel. -/
def parseElementsAux (f : List Char → Option (JVal × List Char)) :
    Nat → List Char → Option (List JVal × List Char)
  | 0, _ => none
  | fuel + 1, cs =>
    match f cs with
    | some (v, r) =>
      match skipWs r with
      | ',' :: r2 =>
        match parseElementsAux f fuel r2 with
        | some (vs, rest) => some (v :: vs, rest)
        | none => none
      | c :: r2 => if c == ']' then some ([v], r2) else none
      | [] => none
    | none => none

/- Member list of a JSON object, with Python dict duplicate-key handling. -/
def parseMembersAux (f : List Char → Option (JVal × List Char)) :
    Nat → List Char → List (List Char × JVal) →
    Option (List (List Char × JVal) × List Char)
  | 0, _, _ => none
  | fuel + 1, cs, acc =>
    match skipWs cs with
    | c :: r =>
      if c == '"' then
        match parseStringBody r with
        | some (k, r1) =>
          match skipWs r1 with
          | ':' :: r2 =>
            match f r2 with
            | some (v, r3) =>
              let acc2 := dictInsert acc k v
              match skipWs r3 with
              | ',' :: r4 => parseMembersAux f fuel r4 acc2
              | c2 :: r4 => if c2 == rbraceC then some (acc2, r4) else none
              | [] => none
            | none => none
          | _ => none
        | none => none
      else none
    | [] => none

def parseValue : Nat → List Char → Option (JVal × List Char)
  | 0, _ => none
  | fuel + 1, input =>
    let cs := skipWs input
    match cs with
    | [] => none
    | c :: r =>
      if c == lbraceC then
        match skipWs r with
        | c2 :: r2 =>
          if c2 == rbraceC then some (.obj [], r2)
          else
            match parseMembersAux (parseValue fuel) fuel (skipWs r) [] with
            | some (fs, rest) => some (.obj fs, rest)
            | none => none
        | [] => none
      else if c == '[' then
        match skipWs r with
        | c2 :: r2 =>
          if c2 == ']' then some (.arr [], r2)
          else
            match parseElementsAux (parseValue fuel) fuel (skipWs r) with
            | some (vs, rest) => some (.arr vs, rest)
            | none => none
        | [] => none
      else if c == '"' then
        match parseStringBody r with
        | some (s, rest) => some (.str s, rest)
        | none => none
      else if List.isPrefixOf ("true".toList) cs then some (.bool true, cs.drop 4)
      else if List.isPrefixOf ("false".toList) cs then some (.bool false, cs.drop 5)
      else if List.isPrefixOf ("null".toList) cs then some (.null, cs.drop 4)
      else if List.isPrefixOf ("NaN".toList) cs then some (.num ("NaN".toList), cs.drop 3)
      else if List.isPrefixOf ("Infinity".toList) cs then
        some (.num ("Infinity".toList), cs.drop 8)
      else if List.isPrefixOf ("-Infinity".toList) cs then
        some (.num ("-Infinity".toList), cs.drop 9)
      else
        match parseNumber cs with
        | some (lex, rest) => some (.num lex, rest)
        | none => none

/- json.loads: a single value with only whitespace around it. -/
def jsonParse (s : List Char) : Option JVal :=
  match parseValue (s.length + 1) s with
  | some (v, rest) => if (skipWs rest).isEmpty then some v else none
  | none => none

/- ---------------------------------------------------------------- -/
/- The mutable fields of a SimpleAgent session that the modelled methods
   read or write.  memory is the JSON-persisted dict self.memory. -/
structure AgentState where
  memory : List (List Char × JVal)
  chatHistory : List HistEntry
  maxHistory : Int
  modelName : List Char
  plannerModelName : List Char
  pendingCommand : Option (List Char)
  pendingReason : Option (List Char)
  serverProcess : Option Nat
  ragEnabled : Bool

/- Outcome of subprocess.run(command, shell=True, timeout=30): a completed
   process, the TimeoutExpired branch, or any other exception. -/
inductive SubprocessOutcome where
  | completed (exitCode : Int) (stdout stderr : List Char)
  | timedOut
  | raised (msg : List Char)

/- External collaborators of the session, as oracle functions.  Except
   results model Python exceptions escaping the call (error payload is the
   str() of the exception); collaborator-internal details such as generated
   uuids and timestamps stay behind the oracle boundary. -/
structure Env where
  chatOllamaInit : List Char → List Char → List (List Char × JVal) →
    Except (List Char) Unit
  plannerInvoke : List (List Char × List Char) → Except (List Char) (List Char)
  llmInvoke : List (List Char × List Char) → Except (List Char) (List Char)
  subprocessRun : JVal → SubprocessOutcome
  fsWrite : JVal → JVal → Except (List Char) Unit
  tavilyConfigured : Bool
  webSearchRun : JVal → List Char
  chromaAvailable : Bool
  embedHttp : List Char → List Char
  chromaAdd : List Char → List Char → Except (List Char) Unit
  chromaQuery : List Char → Int → Except (List Char) (List (List Char))
  isDir : List Char → Bool
  popen : List Char → Int → Except (List Char) Nat
  poll : Nat → Option Int
  cwd : List Char
  dirExists : List Char → Bool
  iterDir : List Char → Except (List Char) (List (List Char × Bool))
  resolvePath : List Char → List Char
  isFile : List Char → Bool
  readFile : List Char → Except (List Char) (List Char)

/- The effectful session monad: state threading plus Python exceptions.
   An escaped exception leaves the state as mutated so far, exactly as in
   Python. -/
abbrev M (α : Type) := ExceptT (List Char) (StateM AgentState) α

def runM (m : M α) (st : AgentState) : Except (List Char) α × AgentState :=
  m.run.run st

/- ---------------------------------------------------------------- -/
/- SimpleAgent.run_command (source lines 249-263). -/
def runCommand (env : Env) (cmd : JVal) : List Char :=
  match env.subprocessRun cmd with
  | .completed code out err =>
    ("📋 Command: ".toList ++ pyStr cmd ++ "\n".toList)
      ++ ("Exit code: ".toList ++ intStr code ++ "\n".toList)
      ++ (if out.isEmpty then [] else "Output:\n".toList ++ out ++ "\n".toList)
      ++ (if err.isEmpty then [] else "Error:\n".toList ++ err ++ "\n".toList)
  | .timedOut => "❌ Command timed out: ".toList ++ pyStr cmd
  | .raised msg => "❌ Failed to run command: ".toList ++ msg

/- SimpleAgent.create_file (source lines 237-247); the directory creation
   and write sit behind the fsWrite oracle, whose error is the caught
   exception. -/
def createFile (env : Env) (path content : JVal) : List Char :=
  match env.fsWrite path content with
  | .ok _ => "✅ Successfully created: ".toList ++ pyStr path
  | .error e => "❌ Failed to create ".toList ++ pyStr path ++ ": ".toList ++ e

/- SimpleAgent.web_search (source lines 200-235): the missing-key check is
   source logic; the request plus result formatting all sit inside one
   try/except returning a string, modelled by the webSearchRun oracle. -/
def webSearch (env : Env) (query : JVal) : List Char :=
  if env.tavilyConfigured then env.webSearchRun query
  else "❌ Tavily API key not configured. Web search is not available.".toList

/- SimpleAgent._queue_command (source lines 274-282). -/
def queueCommand (st : AgentState) (command reason : List Char) :
    AgentState × List Char :=
  ({ st with pendingCommand := some command, pendingReason := some reason },
   "⚠️ Command requires confirmation.\nReason: ".toList ++ reason
     ++ "\nPending: ".toList ++ command
     ++ "\n\nUse /confirm to run it or /cancel to discard.".toList)

def noPendingMsg : List Char :=
  "ℹ️ No pending command.".toList

/- SimpleAgent._confirm_command (source lines 284-290); the falsiness test
   on self._pending_command treats None and the empty string alike. -/
def confirmCommand (env : Env) (st : AgentState) : AgentState × List Char :=
  match st.pendingCommand with
  | none => (st, noPendingMsg)
  | some cmd =>
    if cmd.isEmpty then (st, noPendingMsg)
    else ({ st with pendingCommand := none, pendingReason := none },
          runCommand env (.str cmd))

/- SimpleAgent._cancel_command (source lines 292-297). -/
def cancelCommand (st : AgentState) : AgentState × List Char :=
  match st.pendingCommand with
  | none => (st, noPendingMsg)
  | some cmd =>
    if cmd.isEmpty then (st, noPendingMsg)
    else ({ st with pendingCommand := none, pendingReason := none },
          "✅ Pending command canceled.".toList)

/- SimpleAgent._ollama_embed (source lines 327-346): empty input short
   circuits; the HTTP call returns the embedding or [] on any failure. -/
def ollamaEmbedFn (env : Env) (text : List Char) : List Char :=
  let t := pyStrip text
  if t.isEmpty then [] else env.embedHttp t

/- SimpleAgent.rag_query (source lines 377-398). -/
def ragQueryFn (env : Env) (st : AgentState) (q : List Char) (k : Int) :
    List (List Char) :=
  if !st.ragEnabled then []
  else if !env.chromaAvailable then []
  else
    let q2 := pyStrip q
    if q2.isEmpty then []
    else
      let emb := ollamaEmbedFn env q2
      if emb.isEmpty then []
      else
        match env.chromaQuery emb k with
        | .ok docs => docs.filter (fun d => !d.isEmpty)
        | .error _ => []

/- SimpleAgent.rag_add (source lines 348-375); the uuid, timestamp and
   metadata stay behind the chromaAdd oracle. -/
def ragAddM (env : Env) (text : List Char) : M (List Char) := do
  let st ← get
  if !st.ragEnabled then
    pure ("ℹ️ RAG memory is disabled.".toList)
  else if !env.chromaAvailable then
    pure ("❌ ChromaDB is not available. Install dependencies and restart.".toList)
  else
    let t := pyStrip text
    if t.isEmpty then
      pure ("❌ Usage: /remember <text>".toList)
    else
      let emb := ollamaEmbedFn env t
      if emb.isEmpty then
        pure ("❌ Could not create embeddings (is Ollama running and is the embed model available?).".toList)
      else
        match env.chromaAdd t emb with
        | .ok _ => pure ("✅ Saved to RAG memory.".toList)
        | .error e => pure ("❌ Failed to save to RAG memory: ".toList ++ e)

/- The chat_history entries as stored into self.memory by save_memory. -/
def histEntryToJVal (e : HistEntry) : JVal :=
  .obj [("role".toList, .str e.role), ("content".toList, .str e.content)]

/- SimpleAgent.save_memory (source lines 181-188): updates the dict; the
   json.dump to disk swallows its own exceptions and changes no session
   state, so it stays behind the boundary. -/
def saveMemoryM : M Unit :=
  modify fun st =>
    { st with memory := (dictInsert st.memory ("chat_history".toList)
        (.arr ((pySliceFrom (-30) st.chatHistory).map histEntryToJVal))) }

/- SimpleAgent.remember (source lines 190-193). -/
def rememberM (k : List Char) (v : JVal) : M Unit := do
  modify fun st => { st with memory := dictInsert st.memory k v }
  saveMemoryM

/- SimpleAgent._append_history (source lines 195-198). -/
def appendHistoryM (role content : List Char) : M Unit := do
  modify fun st =>
    { st with chatHistory :=
        (appendHistoryPure st.maxHistory st.chatHistory ⟨role, content⟩) }
  saveMemoryM

/- The common tail of every directive branch of process_request:
   append the assistant output to history and return it. -/
def replyWith (out : List Char) : M (List Char) := do
  appendHistoryM ("assistant".toList) out
  pure out

/- SimpleAgent._init_llm (source lines 139-147): the two ChatOllama
   constructions (including the float() on the remembered temperatures)
   are the collaborator call. -/
def initLLMM (env : Env) : M Unit := do
  let st ← get
  match env.chatOllamaInit st.modelName st.plannerModelName st.memory with
  | .ok _ => pure ()
  | .error e => throw e

/- SimpleAgent.set_model (source lines 149-158). -/
def setModel (env : Env) (name : List Char) : M (List Char) := do
  let n := pyStrip name
  if n.isEmpty then
    pure ("❌ Usage: /model <model-name>".toList)
  else do
    modify fun st =>
      { st with
        modelName := n
        memory := (dictInsert st.memory ("model_name".toList) (.str n)) }
    saveMemoryM
    initLLMM env
    pure ("✅ Model set to: ".toList ++ n)

/- SimpleAgent.set_planner_model (source lines 160-169). -/
def setPlannerModel (env : Env) (name : List Char) : M (List Char) := do
  let n := pyStrip name
  if n.isEmpty then
    pure ("❌ Usage: /planner <model-name>".toList)
  else do
    modify fun st =>
      { st with
        plannerModelName := n
        memory := (dictInsert st.memory ("planner_model_name".toList) (.str n)) }
    saveMemoryM
    initLLMM env
    pure ("✅ Planner model set to: ".toList ++ n)

/- ---------------------------------------------------------------- -/
/- SimpleAgent._execute_plan (source lines 475-504). -/

/- Python single quotes around a string, as f-strings in the source use. -/
def quoteSq (s : List Char) : List Char :=
  aposC :: (s ++ [aposC])

def missingFieldMsg (tool field : List Char) : List Char :=
  "❌ ".toList ++ tool ++ " missing ".toList ++ quoteSq field

/- One iteration of the for loop over plan actions: the list of values the
   iteration appends to outputs (raw, as Python does: a reply with a
   non-string text is appended unchanged), or the exception a non-dict
   action raises at action.get. -/
def execAction (env : Env) (action : JVal) : Except Unit (List JVal) :=
  match action with
  | .obj fs =>
    let tool := (jLookup fs ("tool".toList)).getD .null
    match tool with
    | .str s =>
      if s = "create_file".toList then
        let path := (jLookup fs ("path".toList)).getD .null
        let content := (jLookup fs ("content".toList)).getD (.str [])
        if jFalsy path then
          .ok [.str (missingFieldMsg ("create_file".toList) ("path".toList))]
        else .ok [.str (createFile env path content)]
      else if s = "run_command".toList then
        let cmd := (jLookup fs ("command".toList)).getD .null
        if jFalsy cmd then
          .ok [.str (missingFieldMsg ("run_command".toList) ("command".toList))]
        else .ok [.str (runCommand env cmd)]
      else if s = "web_search".toList then
        let query := (jLookup fs ("query".toList)).getD .null
        if jFalsy query then
          .ok [.str (missingFieldMsg ("web_search".toList) ("query".toList))]
        else .ok [.str (webSearch env query)]
      else if s = "reply".toList then
        let text := (jLookup fs ("text".toList)).getD (.str [])
        if jTruthy text then .ok [text] else .ok []
      else .ok [.str ("❌ Unknown tool in plan: ".toList ++ pyStr tool)]
    | _ => .ok [.str ("❌ Unknown tool in plan: ".toList ++ pyStr tool)]
  | _ => .error ()

def execActions (env : Env) : List JVal → Except Unit (List JVal)
  | [] => .ok []
  | a :: rest => do
    let o ← execAction env a
    let os ← execActions env rest
    .ok (o ++ os)

/- Python iteration over plan.get("actions", []): lists yield elements,
   strings yield their one-character substrings, dicts yield their keys,
   everything else raises TypeError. -/
def iterElems : JVal → Except Unit (List JVal)
  | .arr xs => .ok xs
  | .str s => .ok (s.map (fun c => .str [c]))
  | .obj fs => .ok (fs.map (fun p => .str p.1))
  | _ => .error ()

/- The final join raises TypeError unless every kept output is a string. -/
def allStrings : List JVal → Except Unit (List (List Char))
  | [] => .ok []
  | .str s :: rest => (allStrings rest).map (fun l => s :: l)
  | _ :: _ => .error ()

/- The filter in the source keeps outputs that are not None and not the
   empty string. -/
def keptOutput (o : JVal) : Bool :=
  match o with
  | .null => false
  | .str s => !s.isEmpty
  | _ => true

def executePlanE (env : Env) (plan : JVal) : Except Unit (List Char) :=
  match plan with
  | .obj fs => do
    let elems ← iterElems ((jLookup fs ("actions".toList)).getD (.arr []))
    let outs ← execActions env elems
    let strs ← allStrings (outs.filter keptOutput)
    .ok (joinSep ("\n".toList) strs)
  | _ => .error ()

/- Is a decoded planner output a plan object: a dict whose type key maps
   to the string plan (process_request lines 642-643). -/
def isPlanObj (v : JVal) : Bool :=
  match v with
  | .obj fs =>
    match jLookup fs ("type".toList) with
    | some (.str s) => s == "plan".toList
    | _ => false
  | _ => false

/- The Plan Protocol Codec inlined in process_request lines 639-650:
   classify a planner output and, for a plan, run the executor; any parse
   failure, non-plan JSON, or exception inside the plan branch falls
   through to the plain-reply outcome. -/
inductive PlanOutcome where
  | planExecuted (result : List Char)
  | plainReply (text : List Char)

def codecOutcome (env : Env) (planned : List Char) : PlanOutcome :=
  if List.isPrefixOf [lbraceC] planned then
    match jsonParse planned with
    | some v =>
      if isPlanObj v then
        match executePlanE env v with
        | .ok out => .planExecuted out
        | .error _ => .plainReply planned
      else .plainReply planned
    | none => .plainReply planned
  else .plainReply planned

/- Specification-side predicate: the planner output is valid JSON of type
   plan (it begins with a left brace, parses, and its type field is the
   string plan). -/
def isPlanJson (t : List Char) : Bool :=
  List.isPrefixOf [lbraceC] t &&
    (match jsonParse t with
     | some v => isPlanObj v
     | none => false)

/- ---------------------------------------------------------------- -/
/- SimpleAgent._list_files and _read_file_text, _serve_start, _serve_stop. -/

/- Codepoint-wise lexicographic strict order on strings, as Python
   compares str values. -/
def strLtB : List Char → List Char → Bool
  | [], [] => false
  | [], _ :: _ => true
  | _ :: _, [] => false
  | a :: as, b :: bs =>
    if a.toNat < b.toNat then true
    else if b.toNat < a.toNat then false
    else strLtB as bs

/- The sort key of _list_files: (not is_dir, name.lower()), directories
   first, then case-folded name. -/
def fileKeyLe (x y : List Char × Bool) : Bool :=
  let kx : Nat := if x.2 then 0 else 1
  let ky : Nat := if y.2 then 0 else 1
  if kx < ky then true
  else if ky < kx then false
  else !(strLtB (pyLower y.1) (pyLower x.1))

/- Stable insertion sort, matching Python sorted(). -/
def insertLe (le : α → α → Bool) (x : α) : List α → List α
  | [] => [x]
  | y :: ys => if le y x then y :: insertLe le x ys else x :: y :: ys

def sortStable (le : α → α → Bool) (l : List α) : List α :=
  l.foldl (fun acc x => insertLe le x acc) []

/- Stripping of surrounding whitespace and quotes as the path handlers do:
   .strip().strip(dquote).strip(squote). -/
def stripPathQuotes (s : List Char) : List Char :=
  pyStripChar aposC (pyStripChar '"' (pyStrip s))

/- SimpleAgent._list_files (source lines 299-310); p.iterdir() sits outside
   any try, so its failure escapes as an exception. -/
def listFilesM (env : Env) (folderArg : List Char) : M (List Char) := do
  let f0 := if folderArg.isEmpty then ".".toList else folderArg
  let f := stripPathQuotes f0
  if !(env.dirExists f) then
    pure ("❌ Folder not found: ".toList ++ f)
  else
    match env.iterDir f with
    | .error e => throw e
    | .ok entries =>
      let sorted := sortStable fileKeyLe entries
      let items := sorted.map (fun p =>
        "- [".toList ++ (if p.2 then "dir".toList else "file".toList)
          ++ "] ".toList ++ p.1)
      if items.isEmpty then
        pure ("(empty) ".toList ++ env.resolvePath f)
      else
        pure (env.resolvePath f ++ "\n".toList ++ joinSep ("\n".toList) items)

/- SimpleAgent._read_file_text (source lines 312-325). -/
def readFileTextM (env : Env) (pathArg : List Char) : M (List Char) := do
  let p := stripPathQuotes pathArg
  if p.isEmpty then
    pure ("❌ Usage: /open <file-path>".toList)
  else if !(env.isFile p) then
    pure ("❌ File not found: ".toList ++ p)
  else
    match env.readFile p with
    | .ok text =>
      if 8000 < text.length then
        pure (text.take 8000 ++ "\n\n... (truncated)".toList)
      else pure text
    | .error e => pure ("❌ Failed to read file: ".toList ++ e)

/- SimpleAgent._serve_start (source lines 400-430).  The folder argument
   can be a remembered non-string value; (folder or "") followed by .strip
   then raises AttributeError, escaping the handler. -/
def serveStartM (env : Env) (folderJ : JVal) (port : Int) : M (List Char) := do
  let fv := if jFalsy folderJ then JVal.str [] else folderJ
  match fv with
  | .str s0 =>
    let folder := stripPathQuotes s0
    if folder.isEmpty then
      pure ("❌ Usage: /serve <folder> [port]".toList)
    else if !(env.isDir folder) then
      pure ("❌ Folder not found: ".toList ++ folder)
    else do
      let st ← get
      let running := match st.serverProcess with
        | some pid => (env.poll pid).isNone
        | none => false
      if running then
        pure ("❌ A server is already running. Use /serve stop first.".toList)
      else
        match env.popen folder port with
        | .error e => do
          modify fun s => { s with serverProcess := none }
          pure ("❌ Failed to start server: ".toList ++ e)
        | .ok pid => do
          modify fun s => { s with serverProcess := some pid }
          modify fun s =>
            { s with memory := (dictInsert
                (dictInsert s.memory ("last_served_folder".toList) (.str folder))
                ("last_served_port".toList) (.num (intStr port))) }
          saveMemoryM
          pure ("✅ Serving ".toList ++ quoteSq folder
            ++ " on http://localhost:".toList ++ intStr port
            ++ "\nStop with: /serve stop".toList)
  | _ => throw ("AttributeError: object has no attribute strip".toList)

/- SimpleAgent._serve_stop (source lines 432-448): terminate/kill errors
   are swallowed and the handle is always cleared. -/
def serveStopM (env : Env) : M (List Char) := do
  let st ← get
  let gone := match st.serverProcess with
    | none => true
    | some pid => (env.poll pid).isSome
  modify fun s => { s with serverProcess := none }
  if gone then
    pure ("ℹ️ No server is currently running.".toList)
  else
    pure ("✅ Server stopped.".toList)

/- ---------------------------------------------------------------- -/
/- The prompt constants of __init__ (source lines 76-137). -/

def systemPrompt : List Char :=
  ("You are an advanced autonomous coding agent with access to powerful tools for development, research, and problem-solving.\n\n"
    ++ "CAPABILITIES:\n- Web search and documentation lookup via Tavily\n- Code analysis and pattern searching\n- File operations and directory management\n- Terminal command execution\n- Real-time information retrieval\n- Contextual memory for remembering user preferences and past actions\n\n"
    ++ "GUIDELINES:\n1. Always analyze the user\x27s request carefully before taking action\n2. Use web search when you need current information or documentation\n3. Use code analysis tools to understand existing codebases\n4. Execute terminal commands only when necessary and safe\n5. Provide clear, actionable feedback about your actions\n6. Be efficient and avoid redundant operations\n7. Ask for clarification when requests are ambiguous\n8. Remember user preferences and project context\n9. When asked to create files or projects, ACTUALLY CREATE THEM using file creation tools\n\n"
    ++ "OUTPUT FORMAT REQUIREMENTS:\n- When you need the program to take actions, you MUST respond with a single JSON object (and nothing else) matching the schema described in the user\x27s message.\n- If no actions are needed, you may respond with normal text.\n\n"
    ++ "You are thorough, efficient, and focused on delivering high-quality solutions.").toList

def plannerPrompt : List Char :=
  ("You are a planner for a local coding agent.\n\nReturn either:\n1) A normal assistant response (plain text) if no actions are needed.\nOR\n2) A SINGLE JSON object (and nothing else) with this schema:\n\n"
    ++ "\x7b\n  \"type\": \"plan\",\n  \"actions\": [\n    \x7b\n      \"tool\": \"create_file\",\n      \"path\": \"relative/or/absolute/path\",\n      \"content\": \"file content as a string\"\n    \x7d,\n    \x7b\n      \"tool\": \"run_command\",\n      \"command\": \"command to execute\"\n    \x7d,\n    \x7b\n      \"tool\": \"web_search\",\n      \"query\": \"search query\"\n    \x7d,\n    \x7b\n      \"tool\": \"reply\",\n      \"text\": \"final user-facing message\"\n    \x7d\n  ]\n\x7d\n\n"
    ++ "Rules:\n- Use web_search ONLY if user explicitly asks for news/current events/web search.\n- If user asks to create/build files, you MUST output the JSON plan, not plain text.\n- Start your response with \x7b and end with \x7d for JSON plans.\n").toList

/- SimpleAgent.available_models (source lines 25-29). -/
def availableModels : List (List Char) :=
  [("gpt-oss:120b-cloud".toList),
   ("deepseek-v3.1:671b-cloud".toList),
   ("qwen3-coder:480b-cloud".toList)]

/- ---------------------------------------------------------------- -/
/- SimpleAgent._plan and the request pipeline of process_request. -/

/- Python: value or default, for dict.get results. -/
def jvalOrDefault (v : Option JVal) (d : JVal) : JVal :=
  match v with
  | some w => if jTruthy w then w else d
  | none => d

/- The agent-state snapshot dict built in _plan and in the normal reply
   path (source lines 455-465 and 653-663). -/
def baseStateDict (st : AgentState) : List (List Char × JVal) :=
  [("current_model".toList, .str st.modelName),
   ("planner_model".toList, .str st.plannerModelName),
   ("last_served_folder".toList,
     (jLookup st.memory ("last_served_folder".toList)).getD .null),
   ("last_served_port".toList,
     (jLookup st.memory ("last_served_port".toList)).getD .null),
   ("rag_enabled".toList, .bool st.ragEnabled)]

def stateWithRetrieved (env : Env) (st : AgentState) (input : List Char) :
    List (List Char × JVal) :=
  let retrieved := ragQueryFn env st input 3
  if retrieved.isEmpty then baseStateDict st
  else dictInsert (baseStateDict st) ("retrieved_memories".toList)
    (.arr (retrieved.map (fun r => .str r)))

/- SimpleAgent._plan (source lines 450-473). -/
def planM (env : Env) (input : List Char) : M (List Char) := do
  let st ← get
  let historyText := joinSep ("\n".toList)
    ((pySliceFrom (-6) st.chatHistory).map
      (fun m => pyUpper m.role ++ ": ".toList ++ m.content))
  let stateJ := JVal.obj (stateWithRetrieved env st input)
  match env.plannerInvoke
      [("system".toList, plannerPrompt),
       ("system".toList, "Agent state (JSON): ".toList ++ jDump stateJ),
       ("system".toList, "Recent chat history (for context):\n".toList ++ historyText),
       ("human".toList, input)] with
  | .ok content => pure (pyStrip content)
  | .error e => throw e

/- SimpleAgent.process_request without its outermost try/except
   (source lines 506-678). -/
def processRequestBody (env : Env) (input : List Char) : M (List Char) := do
  appendHistoryM ("user".toList) input
  rememberM ("last_request".toList) (.str input)
  let stp := pyStrip input
  let low := pyLower stp
  if low = "/models".toList ∨ low = "/model list".toList then do
    let st ← get
    let modelsText := joinSep ("\n".toList)
      (availableModels.map (fun m => "- ".toList ++ m))
    replyWith ("Available models:\n".toList ++ modelsText
      ++ "\n\nCurrent: ".toList ++ st.modelName
      ++ "\n\nUse: /model <name>".toList)
  else if List.isPrefixOf ("/model ".toList) low then do
    let arg := pyStrip (stp.drop 7)
    if pyLower arg = "show".toList ∨ pyLower arg = "current".toList then do
      let st ← get
      replyWith ("Current model: ".toList ++ st.modelName)
    else do
      let out ← setModel env arg
      replyWith out
  else if low = "/planner".toList ∨ low = "/planner show".toList then do
    let st ← get
    replyWith ("Planner model: ".toList ++ st.plannerModelName)
  else if List.isPrefixOf ("/planner ".toList) low then do
    let out ← setPlannerModel env (pyStrip (stp.drop 9))
    replyWith out
  else if List.isPrefixOf ("/remember ".toList) low then do
    let out ← ragAddM env (pyStrip (stp.drop 10))
    replyWith out
  else if List.isPrefixOf ("/memories".toList) low then do
    let q := pyStrip (stp.drop 9)
    if q.isEmpty then
      replyWith ("❌ Usage: /memories <query>".toList)
    else do
      let st ← get
      let items := ragQueryFn env st q 6
      if items.isEmpty then
        replyWith ("ℹ️ No relevant memories found.".toList)
      else
        replyWith ("Retrieved memories:\n".toList
          ++ joinSep ("\n".toList) (items.map (fun m => "- ".toList ++ m)))
  else if List.isPrefixOf ("/serve".toList) low then do
    let parts := pySplit stp
    if parts.length = 1 then do
      let st ← get
      let folderJ := jvalOrDefault (jLookup st.memory ("last_served_folder".toList))
        (.str ("restaurant-site".toList))
      let portJ := jvalOrDefault (jLookup st.memory ("last_served_port".toList))
        (.num ("8000".toList))
      match pyIntOfJVal portJ with
      | .error e => throw e
      | .ok port => do
        let out ← serveStartM env folderJ port
        replyWith out
    else
      let p1 := (parts.get? 1).getD []
      if pyLower p1 = "stop".toList then do
        let out ← serveStopM env
        replyWith out
      else
        match parts.get? 2 with
        | none => do
          let out ← serveStartM env (.str p1) 8000
          replyWith out
        | some p2 =>
          match pyIntOfString p2 with
          | none =>
            replyWith ("❌ Port must be a number. Example: /serve restaurant-site 8000".toList)
          | some port => do
            let out ← serveStartM env (.str p1) port
            replyWith out
  else if low = "/pwd".toList ∨ low = "/cwd".toList then
    replyWith env.cwd
  else if List.isPrefixOf ("/files".toList) low then do
    let parts := pySplitMax1 stp
    let folder := match parts with
      | [_, f] => f
      | _ => ".".toList
    let out ← listFilesM env folder
    replyWith out
  else if List.isPrefixOf ("/open ".toList) low then do
    let out ← readFileTextM env (pyStrip (stp.drop 6))
    replyWith out
  else if low = "/confirm".toList then do
    let st ← get
    let r := confirmCommand env st
    set r.1
    replyWith r.2
  else if low = "/cancel".toList then do
    let st ← get
    let r := cancelCommand st
    set r.1
    replyWith r.2
  else if List.isPrefixOf ("/run ".toList) low then do
    let cmd := pyStrip (stp.drop 5)
    if cmd.isEmpty then
      replyWith ("❌ Usage: /run <command>".toList)
    else if isCommandAllowed cmd then
      replyWith (runCommand env (.str cmd))
    else do
      let st ← get
      let r := queueCommand st cmd ("Not in safe allowlist".toList)
      set r.1
      replyWith r.2
  else if List.isPrefixOf ("/search ".toList) low then
    replyWith (webSearch env (.str (pyStrip (stp.drop 8))))
  else do
    let planned ← planM env input
    let planBranch ←
      if List.isPrefixOf [lbraceC] planned then
        match jsonParse planned with
        | some v =>
          if isPlanObj v then
            match executePlanE env v with
            | .ok out => do
              rememberM ("last_action".toList) (.str ("executed_plan".toList))
              appendHistoryM ("assistant".toList) out
              pure (some out)
            | .error _ => pure (none : Option (List Char))
          else pure (none : Option (List Char))
        | none => pure (none : Option (List Char))
      else pure (none : Option (List Char))
    match planBranch with
    | some out => pure out
    | none => do
      let st ← get
      let stateJ := JVal.obj (stateWithRetrieved env st input)
      match env.llmInvoke
          [("system".toList, systemPrompt),
           ("system".toList, "Agent state (JSON): ".toList ++ jDump stateJ),
           ("human".toList, input)] with
      | .error e => throw e
      | .ok content => do
        appendHistoryM ("assistant".toList) content
        let st2 ← get
        if st2.ragEnabled then do
          let _ ← ragAddM env ("USER: ".toList ++ input
            ++ "\nASSISTANT: ".toList ++ content)
          pure content
        else
          pure content

/- SimpleAgent.process_request with its session-boundary try/except
   (source lines 506-680): any escaped exception becomes the
   user-visible error string, with the state as mutated so far. -/
def processRequest (env : Env) (input : List Char) (st : AgentState) :
    List Char × AgentState :=
  match runM (processRequestBody env input) st with
  | (.ok out, st2) => (out, st2)
  | (.error e, st2) => ("❌ Error processing request: ".toList ++ e, st2)

/- ---------------------------------------------------------------- -/
/- Concrete environments and states for closed instances. -/

def trivEnv : Env :=
  { chatOllamaInit := fun _ _ _ => .ok ()
    plannerInvoke := fun _ => .ok []
    llmInvoke := fun _ => .ok []
    subprocessRun := fun _ => .completed 0 [] []
    fsWrite := fun _ _ => .ok ()
    tavilyConfigured := false
    webSearchRun := fun _ => []
    chromaAvailable := false
    embedHttp := fun _ => []
    chromaAdd := fun _ _ => .ok ()
    chromaQuery := fun _ _ => .ok []
    isDir := fun _ => false
    popen := fun _ _ => .error []
    poll := fun _ => none
    cwd := []
    dirExists := fun _ => false
    iterDir := fun _ => .ok []
    resolvePath := fun s => s
    isFile := fun _ => false
    readFile := fun _ => .error [] }

def initState : AgentState :=
  { memory := []
    chatHistory := []
    maxHistory := 20
    modelName := "gpt-oss:120b-cloud".toList
    plannerModelName := "qwen3-coder:480b-cloud".toList
    pendingCommand := none
    pendingReason := none
    serverProcess := none
    ragEnabled := false }

/- The plan JSON of claim C5. -/
def c5PlanText : List Char :=
  "\x7b\"type\":\"plan\",\"actions\":[\x7b\"tool\":\"reply\",\"text\":\"hello\"\x7d]\x7d".toList

/- The actions of claim C6: a create_file action with no path, then a
   reply action. -/
def c6Act1 : JVal :=
  .obj [("tool".toList, .str ("create_file".toList))]

def c6Act2 (text : List Char) : JVal :=
  .obj [("tool".toList, .str ("reply".toList)), ("text".toList, .str text)]

def c6Plan (pre : List JVal) (text : List Char) (rest : List JVal) : JVal :=
  .obj [("type".toList, .str ("plan".toList)),
        ("actions".toList, .arr (pre ++ c6Act1 :: c6Act2 text :: rest))]

def missPathMsg : List Char :=
  missingFieldMsg ("create_file".toList) ("path".toList)

/- A session state with a disallowed command pending. -/
def c9State : AgentState :=
  { initState with
    pendingCommand := some ("rm -rf x".toList)
    pendingReason := some ("Not in safe allowlist".toList) }

/- An environment whose directory iteration raises, to drive an
   exception through the session boundary. -/
def c8Env : Env :=
  { trivEnv with
    dirExists := fun _ => true
    iterDir := fun _ => .error ("boom".toList) }

/- ---------------------------------------------------------------- -/
/- Theorems -/

/- Any Python slice l[s:] is a suffix of l. -/
theorem pySliceFrom_suffix (s : Int) (l : List α) : pySliceFrom s l <:+ l := by
  unfold pySliceFrom
  split <;> exact List.drop_suffix _ _

theorem appendHistoryPure_suffix (m : Int) (h : List HistEntry) (e : HistEntry) :
    appendHistoryPure m h e <:+ h ++ [e] :=
  pySliceFrom_suffix _ _

theorem appendHistoryPure_length_le (m : Int) (hm : 1 ≤ m) (h : List HistEntry)
    (e : HistEntry) : ((appendHistoryPure m h e).length : Int) ≤ m := by
  unfold appendHistoryPure pySliceFrom
  have hneg : -m < 0 := by omega
  rw [if_pos hneg, List.length_drop]
  simp only [neg_neg]
  omega

/-- C1: the safety gate allows a command iff its lowercased, whitespace
trimmed text starts with one of the configured allow-list prefixes
(case-insensitive prefix match, hence independent of trailing arguments),
and in particular an empty or whitespace-only command is rejected. -/
theorem c1_gate_allow_iff (c : List Char) :
    (isCommandAllowed c = true ↔ startsWithAllowedPrefix c)
    ∧ (pyStrip c = [] → isCommandAllowed c = false) := by
  have key : isCommandAllowed c
      = allowedCommandPrefixes.any
          (fun p => List.isPrefixOf (pyLower p) (pyLower (pyStrip c))) := by
    unfold isCommandAllowed
    cases hc : (pyLower (pyStrip c)).isEmpty
    · simp [hc]
    · have hnil : pyLower (pyStrip c) = [] := by
        simpa [List.isEmpty_iff] using hc
      simp only [hc, if_true]
      rw [hnil]
      decide
  constructor
  · rw [key, List.any_eq_true]
    unfold startsWithAllowedPrefix
    constructor
    · rintro ⟨p, hp, hpre⟩; exact ⟨p, hp, hpre⟩
    · rintro ⟨p, hp, hpre⟩; exact ⟨p, hp, hpre⟩
  · intro h
    rw [key, h]
    decide

/-- Witness for C1 at a whitespace-only command. -/
theorem c1_gate_allow_iff_witness :
    isCommandAllowed ("   ".toList) = false :=
  (c1_gate_allow_iff ("   ".toList)).2 (by decide)

/-- C2 counterexample: the claim quantifies over every value of maxHistory,
but with maxHistory = 0 the truncation slice chat_history[-0:] keeps the
whole list, so a single append leaves 1 entry, exceeding the cap of 0. -/
theorem c2_history_cap_counterexample :
    ¬ (((appendHistoryPure 0 [] c2Entry).length : Int) ≤ 0) := by
  decide

/-- C2 amended: for every maxHistory of at least 1, after one or more
appends the chat history holds at most maxHistory entries, and the
surviving entries are a suffix of the full append sequence (oldest entries
evicted first, insertion order preserved). -/
theorem c2_history_cap_amended (m : Int) (hm : 1 ≤ m) (init : List HistEntry)
    (es : List HistEntry) (hne : es ≠ []) :
    ((es.foldl (appendHistoryPure m) init).length : Int) ≤ m
    ∧ es.foldl (appendHistoryPure m) init <:+ init ++ es := by
  induction es generalizing init with
  | nil => exact absurd rfl hne
  | cons e rest ih =>
    rw [List.foldl_cons]
    cases rest with
    | nil =>
      constructor
      · simpa using appendHistoryPure_length_le m hm init e
      · simpa using appendHistoryPure_suffix m init e
    | cons e2 r2 =>
      have h2 := ih (appendHistoryPure m init e) (by simp)
      refine ⟨h2.1, ?_⟩
      obtain ⟨q, hq⟩ := appendHistoryPure_suffix m init e
      have hstep : appendHistoryPure m init e ++ (e2 :: r2) <:+ init ++ (e :: e2 :: r2) := by
        refine ⟨q, ?_⟩
        rw [← List.append_assoc, hq]
        simp
      exact h2.2.trans hstep

/-- Witness for the amended C2 at maxHistory = 1 and a single append. -/
theorem c2_history_cap_amended_witness :
    ((([c2Entry].foldl (appendHistoryPure 1) []).length : Int) ≤ 1)
    ∧ [c2Entry].foldl (appendHistoryPure 1) [] <:+ [] ++ [c2Entry] :=
  c2_history_cap_amended 1 (by decide) [] [c2Entry] (by simp)

/-- C3: queuing a disallowed command overwrites any previously pending one:
after queuing A with reason rA and then B with reason rB, exactly B and
rB are pending, and the state equals the one obtained by queuing B alone
(the Option-typed field holds zero or one command by construction). -/
theorem c3_pending_overwrite (st : AgentState) (a ra b rb : List Char) :
    ((queueCommand (queueCommand st a ra).1 b rb).1.pendingCommand = some b)
    ∧ ((queueCommand (queueCommand st a ra).1 b rb).1.pendingReason = some rb)
    ∧ (queueCommand (queueCommand st a ra).1 b rb).1 = (queueCommand st b rb).1 :=
  ⟨rfl, rfl, rfl⟩

/-- C4: confirming or cancelling with no pending command returns the
informational no-pending result, leaves the whole session state unchanged,
and repeating the confirm is the same no-op. -/
theorem c4_confirm_cancel_no_pending (env : Env) (st : AgentState)
    (h : st.pendingCommand = none) :
    confirmCommand env st = (st, noPendingMsg)
    ∧ cancelCommand st = (st, noPendingMsg)
    ∧ confirmCommand env (confirmCommand env st).1 = (st, noPendingMsg) := by
  simp [confirmCommand, cancelCommand, h]

/-- Witness for C4 at the initial session state. -/
theorem c4_confirm_cancel_no_pending_witness :
    confirmCommand trivEnv initState = (initState, noPendingMsg)
    ∧ cancelCommand initState = (initState, noPendingMsg)
    ∧ confirmCommand trivEnv (confirmCommand trivEnv initState).1
        = (initState, noPendingMsg) :=
  c4_confirm_cancel_no_pending trivEnv initState rfl

/-- C9: confirming while a (non-empty) command is pending clears the
pending command and its reason unconditionally, the returned output is the
command execution result for an arbitrary subprocess collaborator (so the
clearing does not depend on the execution succeeding, failing, or timing
out), and an immediately following confirm returns the no-pending result
with the state unchanged. -/
theorem c9_confirm_clears_before_execution (env : Env) (st : AgentState)
    (c : List Char) (hp : st.pendingCommand = some c) (hc : c ≠ []) :
    (confirmCommand env st).1.pendingCommand = none
    ∧ (confirmCommand env st).1.pendingReason = none
    ∧ (confirmCommand env st).2 = runCommand env (.str c)
    ∧ confirmCommand env (confirmCommand env st).1
        = ((confirmCommand env st).1, noPendingMsg) := by
  have hne : c.isEmpty = false := by
    cases c with
    | nil => exact absurd rfl hc
    | cons x xs => rfl
  simp [confirmCommand, hp, hne]

/-- Witness for C9 at a state with a pending disallowed command, under the
trivial collaborators. -/
theorem c9_confirm_clears_before_execution_witness :
    (confirmCommand trivEnv c9State).1.pendingCommand = none
    ∧ (confirmCommand trivEnv c9State).1.pendingReason = none
    ∧ (confirmCommand trivEnv c9State).2 = runCommand trivEnv (.str ("rm -rf x".toList))
    ∧ confirmCommand trivEnv (confirmCommand trivEnv c9State).1
        = ((confirmCommand trivEnv c9State).1, noPendingMsg) :=
  c9_confirm_clears_before_execution trivEnv c9State ("rm -rf x".toList) rfl (by decide)

/-- C10: calling set_model or set_planner_model with an empty or
whitespace-only name returns the usage-error string and leaves the entire
session state (model names and persisted memory mapping included)
unchanged. -/
theorem c10_set_model_empty_atomic (env : Env) (st : AgentState)
    (name : List Char) (h : pyStrip name = []) :
    runM (setModel env name) st
      = (.ok ("❌ Usage: /model <model-name>".toList), st)
    ∧ runM (setPlannerModel env name) st
      = (.ok ("❌ Usage: /planner <model-name>".toList), st) := by
  have he : (pyStrip name).isEmpty = true := by rw [h]; rfl
  constructor
  · simp [setModel, he, runM]
  · simp [setPlannerModel, he, runM]

/-- Witness for C10 at a whitespace-only model name. -/
theorem c10_set_model_empty_atomic_witness :
    runM (setModel trivEnv ("   ".toList)) initState
      = (.ok ("❌ Usage: /model <model-name>".toList), initState)
    ∧ runM (setPlannerModel trivEnv ("   ".toList)) initState
      = (.ok ("❌ Usage: /planner <model-name>".toList), initState) :=
  c10_set_model_empty_atomic trivEnv initState ("   ".toList) (by decide)

/-- C5: the planner output consisting of a plan JSON with a single reply
action with text hello parses as a plan and executes, through the codec
and executor, to exactly the string hello, for every collaborator
environment. -/
theorem c5_plan_round_trip (env : Env) :
    isPlanJson c5PlanText = true
    ∧ codecOutcome env c5PlanText = .planExecuted ("hello".toList) :=
  ⟨rfl, rfl⟩

/-- C7: planner output that is not valid plan JSON (free text not starting
with a left brace, malformed near-JSON, or valid JSON whose type is not
plan) is classified by the codec as a plain reply carrying the text
verbatim; the codec is a total function, so no exception is raised. -/
theorem c7_nonplan_is_plain_reply (env : Env) (t : List Char)
    (h : isPlanJson t = false) : codecOutcome env t = .plainReply t := by
  unfold isPlanJson at h
  unfold codecOutcome
  cases hpre : List.isPrefixOf [lbraceC] t with
  | false => simp [hpre]
  | true =>
    rw [hpre] at h
    simp only [Bool.true_and] at h
    cases hp : jsonParse t with
    | none => simp [hp]
    | some v =>
      rw [hp] at h
      have h2 : isPlanObj v = false := h
      simp [hp, h2]

/-- Witness for C7 at a free-text planner output. -/
theorem c7_nonplan_is_plain_reply_witness :
    isPlanJson ("Sure, here is your answer.".toList) = false
    ∧ codecOutcome trivEnv ("Sure, here is your answer.".toList)
        = .plainReply ("Sure, here is your answer.".toList) :=
  ⟨rfl, c7_nonplan_is_plain_reply trivEnv ("Sure, here is your answer.".toList) rfl⟩

/-- C8: process_request is a total function of the session state, the
input and the collaborator behaviours; when the body completes, its result
passes through, and when any exception escapes the body (for any failing
collaborator), the session boundary converts it into the single
user-visible error string, returning the surviving session state for the
next request instead of propagating the exception. -/
theorem c8_session_boundary (env : Env) (input : List Char) (st : AgentState) :
    (∀ out st2, runM (processRequestBody env input) st = (.ok out, st2) →
      processRequest env input st = (out, st2))
    ∧ (∀ e st2, runM (processRequestBody env input) st = (.error e, st2) →
      processRequest env input st
        = ("❌ Error processing request: ".toList ++ e, st2)) := by
  constructor
  · intro out st2 h
    simp [processRequest, h]
  · intro e st2 h
    simp [processRequest, h]

/-- Witness for C8: a directory iteration that raises inside the /files
handler surfaces as the error string, not as an exception. -/
theorem c8_session_boundary_witness :
    processRequest c8Env ("/files x".toList) initState
      = ("❌ Error processing request: ".toList ++ "boom".toList,
         (runM (processRequestBody c8Env ("/files x".toList)) initState).2) :=
  (c8_session_boundary c8Env ("/files x".toList) initState).2 ("boom".toList)
    (runM (processRequestBody c8Env ("/files x".toList)) initState).2 (by rfl)

/- Action execution distributes over concatenation when both halves run
   without raising. -/
theorem execActions_append (env : Env) (l1 l2 : List JVal) (o1 o2 : List JVal)
    (h1 : execActions env l1 = .ok o1) (h2 : execActions env l2 = .ok o2) :
    execActions env (l1 ++ l2) = .ok (o1 ++ o2) := by
  induction l1 generalizing o1 with
  | nil =>
    simp only [execActions] at h1
    cases h1
    simpa using h2
  | cons a rest ih =>
    cases hae : execAction env a with
    | error e => simp [execActions, hae, bind, Except.bind] at h1
    | ok o =>
      cases hre : execActions env rest with
      | error e => simp [execActions, hae, hre, bind, Except.bind] at h1
      | ok os =>
        have h1e : o ++ os = o1 := by
          simpa [execActions, hae, hre, bind, Except.bind] using h1
        have hm := ih os hre
        simp [execActions, hae, hm, bind, Except.bind, ← h1e, List.append_assoc]

theorem allStrings_append (l1 l2 : List JVal) (s1 s2 : List (List Char))
    (h1 : allStrings l1 = .ok s1) (h2 : allStrings l2 = .ok s2) :
    allStrings (l1 ++ l2) = .ok (s1 ++ s2) := by
  induction l1 generalizing s1 with
  | nil =>
    simp only [allStrings] at h1
    cases h1
    simpa using h2
  | cons a rest ih =>
    cases a with
    | str s =>
      cases hre : allStrings rest with
      | error e => simp [allStrings, hre, Except.map] at h1
      | ok os =>
        have h1e : s :: os = s1 := by
          simpa [allStrings, hre, Except.map] using h1
        have hm := ih os hre
        simp [allStrings, hm, Except.map, ← h1e]
    | null => simp [allStrings] at h1
    | bool b => simp [allStrings] at h1
    | num r => simp [allStrings] at h1
    | arr xs => simp [allStrings] at h1
    | obj fs => simp [allStrings] at h1

/- Every element of a joined list is an infix of the join. -/
theorem mem_joinSep_infix (sep : List Char) (l : List (List Char))
    (x : List Char) (hx : x ∈ l) : x <:+: joinSep sep l := by
  induction l with
  | nil => simp at hx
  | cons y ys ih =>
    cases ys with
    | nil =>
      have hxy : x = y := by simpa using hx
      subst hxy
      exact List.infix_refl x
    | cons z zs =>
      rcases List.mem_cons.mp hx with hxy | hxm
      · subst hxy
        exact ⟨[], sep ++ joinSep sep (z :: zs), by simp [joinSep]⟩
      · obtain ⟨s, t, hst⟩ := ih hxm
        exact ⟨y ++ sep ++ s, t, by simp [joinSep, ← hst]⟩

/-- C6: a plan whose actions contain a create_file action with no path
followed by a reply action (with any actions around them that execute
without raising) does not abort: the aggregated result is the join of all
per-action outputs, in which the inline missing-path error and the reply
text both occur, with the later actions still executed. -/
theorem c6_invalid_action_fail_soft (env : Env) (text : List Char)
    (pre rest : List JVal) (pouts routs : List JVal)
    (ps rs : List (List Char))
    (ht : text ≠ [])
    (h1 : execActions env pre = .ok pouts)
    (h2 : execActions env rest = .ok routs)
    (hs1 : allStrings (pouts.filter keptOutput) = .ok ps)
    (hs2 : allStrings (routs.filter keptOutput) = .ok rs) :
    executePlanE env (c6Plan pre text rest)
      = .ok (joinSep ("\n".toList) (ps ++ missPathMsg :: text :: rs))
    ∧ missPathMsg <:+: joinSep ("\n".toList) (ps ++ missPathMsg :: text :: rs)
    ∧ text <:+: joinSep ("\n".toList) (ps ++ missPathMsg :: text :: rs) := by
  have htb : text.isEmpty = false := by
    cases text with
    | nil => exact absurd rfl ht
    | cons c cs => rfl
  have ha1 : execAction env c6Act1 = .ok [.str missPathMsg] := rfl
  have ha2 : execAction env (c6Act2 text) = .ok [.str text] := by
    unfold execAction c6Act2
    simp [jLookup, jTruthy, jFalsy, htb]
  have hmid : execActions env (c6Act1 :: c6Act2 text :: rest)
      = .ok (JVal.str missPathMsg :: JVal.str text :: routs) := by
    simp [execActions, ha1, ha2, h2, bind, Except.bind]
  have hall : execActions env (pre ++ c6Act1 :: c6Act2 text :: rest)
      = .ok (pouts ++ JVal.str missPathMsg :: JVal.str text :: routs) :=
    execActions_append env pre _ pouts _ h1 hmid
  have hk1 : keptOutput (JVal.str missPathMsg) = true := rfl
  have hk2 : keptOutput (JVal.str text) = true := by
    simp [keptOutput, htb]
  have hfil : (pouts ++ JVal.str missPathMsg :: JVal.str text :: routs).filter keptOutput
      = pouts.filter keptOutput
        ++ JVal.str missPathMsg :: JVal.str text :: routs.filter keptOutput := by
    simp [List.filter_append, List.filter_cons, hk1, hk2]
  have hmids : allStrings (JVal.str missPathMsg :: JVal.str text
      :: routs.filter keptOutput) = .ok (missPathMsg :: text :: rs) := by
    simp [allStrings, hs2, Except.map]
  have hstr : allStrings ((pouts ++ JVal.str missPathMsg :: JVal.str text
      :: routs).filter keptOutput) = .ok (ps ++ missPathMsg :: text :: rs) := by
    rw [hfil]
    exact allStrings_append _ _ _ _ hs1 hmids
  have hstr3 : allStrings (List.filter keptOutput pouts
      ++ List.filter keptOutput (JVal.str missPathMsg :: JVal.str text :: routs))
      = Except.ok (ps ++ missPathMsg :: text :: rs) := by
    have hf : List.filter keptOutput (JVal.str missPathMsg :: JVal.str text :: routs)
        = JVal.str missPathMsg :: JVal.str text :: List.filter keptOutput routs := by
      simp [List.filter_cons, hk1, hk2]
    rw [hf]
    exact allStrings_append _ _ _ _ hs1 hmids
  refine ⟨?_, ?_, ?_⟩
  · simp [executePlanE, c6Plan, iterElems, jLookup, hall, hstr3, bind, Except.bind]
  · exact mem_joinSep_infix _ _ _ (by simp)
  · exact mem_joinSep_infix _ _ _ (by simp)

/-- Witness for C6: the two-action plan with reply text done, under the
trivial collaborators. -/
theorem c6_invalid_action_fail_soft_witness :
    executePlanE trivEnv (c6Plan [] ("done".toList) [])
      = .ok (joinSep ("\n".toList) ([] ++ missPathMsg :: ("done".toList) :: []))
    ∧ missPathMsg <:+: joinSep ("\n".toList) ([] ++ missPathMsg :: ("done".toList) :: [])
    ∧ ("done".toList) <:+: joinSep ("\n".toList) ([] ++ missPathMsg :: ("done".toList) :: []) :=
  c6_invalid_action_fail_soft trivEnv ("done".toList) [] [] [] [] [] []
    (by decide) rfl rfl rfl rfl
